import Mathlib

/-!
Verification of the OHLCV technical-indicator engine
(`src/server/python/calculate_indicators.py`).

The engine receives a list of raw rows `[timestamp, open, high, low, close,
volume]`, converts the high/low/close/volume columns to floating-point
arrays, computes a battery of technical indicators, and returns either a
success record with the latest value of every indicator or a failure record
carrying an error string.  Numeric fields are modelled as rationals; a raw
field is either a number or a non-numeric value (a value `float()` cannot
convert).  The indicator recurrences themselves live in the third-party
TA-Lib library, which is not part of the repository source; those are
modelled from the specification's formulas (§4.2) and are marked as such.
-/

/-- One raw input field: either a numeric value or a non-numeric one
(a value that `np.array(-, dtype=float)` fails to convert). -/
inductive RawField where
  | num (q : ℚ)
  | nonnum
deriving DecidableEq

/-- Trend labels produced by the composite analyzer. -/
inductive Trend where
  | uptrend
  | downtrend
  | sideways
deriving DecidableEq

/-- `pd.DataFrame(ohlcv_data, columns=[...six names...])` accepts a row
exactly when it has six fields. -/
def rowOk (r : List RawField) : Bool :=
  r.length == 6

/-- Read field `j` of a row as a number; `none` when the field is missing
or non-numeric (the float conversion would raise). -/
def getNum (r : List RawField) (j : ℕ) : Option ℚ :=
  match r[j]? with
  | some (RawField.num q) => some q
  | _ => none

/-- `np.array(df[col], dtype=float)`: convert column `j` of every row,
failing when any entry cannot be converted.  Only columns 2..5
(high, low, close, volume) are ever converted by the source. -/
def columnQ (j : ℕ) : List (List RawField) → Option (List ℚ)
  | [] => some []
  | r :: rs =>
    match getNum r j, columnQ j rs with
    | some q, some l => some (q :: l)
    | _, _ => none

/-- The trailing `n` elements of a list (`xs[-n:]` in the source,
which yields the whole list when it is shorter than `n`). -/
def takeLast (n : ℕ) (xs : List α) : List α :=
  xs.drop (xs.length - n)

/-- `np.max` over a (nonempty) array; the empty case is unreachable in the
pipeline because the empty series is rejected earlier. -/
def maxD : List ℚ → ℚ
  | [] => 0
  | x :: xs => xs.foldl max x

/-- `np.min` over a (nonempty) array. -/
def minD : List ℚ → ℚ
  | [] => 0
  | x :: xs => xs.foldl min x

/-- `close[-1]`: last element of a nonempty array (the empty case is
unreachable behind the emptiness guard). -/
def lastD (xs : List ℚ) : ℚ :=
  (xs.getLast?).getD 0

/-- Arithmetic mean of a list of rationals. -/
def mean (xs : List ℚ) : ℚ :=
  xs.sum / (xs.length : ℚ)

/-- Modelled from the spec: SMA(n) (§4.2), the arithmetic mean of the
trailing `n` closes, undefined while fewer than `n` bars exist.  The SMA
computation itself is performed by TA-Lib, which is not in the repository
source. -/
def smaLatest (n : ℕ) (xs : List ℚ) : Option ℚ :=
  if 0 < n ∧ n ≤ xs.length then some (mean (takeLast n xs)) else none

/-- Modelled from the spec: the EMA(n) recurrence (§4.2): seeded with the
SMA of the first `n` closes, then `EMA i = close i * k + EMA (i-1) * (1-k)`
with `k = 2/(n+1)`.  Returns the defined tail of the derived series
(positions `n-1 .. N-1`); empty when fewer than `n` bars exist.  The EMA
computation itself is performed by TA-Lib, which is not in the repository
source. -/
def emaSeries (n : ℕ) (xs : List ℚ) : List ℚ :=
  if 0 < n ∧ n ≤ xs.length then
    List.scanl (fun e c => c * (2 / (n + 1)) + e * (1 - 2 / (n + 1)))
      (mean (xs.take n)) (xs.drop n)
  else []

/-- Latest EMA(n) value, `none` during warm-up. -/
def emaLatest (n : ℕ) (xs : List ℚ) : Option ℚ :=
  (emaSeries n xs).getLast?

/-- Consecutive differences `close i - close (i-1)`. -/
def deltas (xs : List ℚ) : List ℚ :=
  List.zipWith (fun a b => a - b) (xs.drop 1) xs

/-- Wilder smoothing with period 14: fold `a, x ↦ (a*13 + x)/14` over the
values after the seed window. -/
def wilder (seed : ℚ) (rest : List ℚ) : ℚ :=
  rest.foldl (fun a x => (a * 13 + x) / 14) seed

/-- RSI from the smoothed average gain and loss:
`100 - 100/(1 + avgGain/avgLoss)`, and `100` when the average loss is
zero (§4.2). -/
def rsiFromAvgs (ag al : ℚ) : ℚ :=
  if al = 0 then 100 else 100 - 100 / (1 + ag / al)

/-- Modelled from the spec: RSI(14) (§4.2), the Wilder-smoothed average of
gains and losses over the close deltas; undefined until 14 deltas exist.
The RSI computation itself is performed by TA-Lib, which is not in the
repository source. -/
def rsiLatest (xs : List ℚ) : Option ℚ :=
  if 14 ≤ (deltas xs).length then
    some (rsiFromAvgs
      (wilder (mean (((deltas xs).map (fun x => max x 0)).take 14))
              (((deltas xs).map (fun x => max x 0)).drop 14))
      (wilder (mean (((deltas xs).map (fun x => max (-x) 0)).take 14))
              (((deltas xs).map (fun x => max (-x) 0)).drop 14)))
  else none

/-- Modelled from the spec: the MACD line (§4.2), `EMA(12) - EMA(26)`,
aligned on the positions (bar 25 onward) where both are defined.  The MACD
computation itself is performed by TA-Lib, which is not in the repository
source. -/
def macdList (xs : List ℚ) : List ℚ :=
  List.zipWith (fun a b => a - b) ((emaSeries 12 xs).drop 14) (emaSeries 26 xs)

/-- Latest MACD-line value, `none` during warm-up. -/
def macdLatest (xs : List ℚ) : Option ℚ :=
  (macdList xs).getLast?

/-- Latest MACD signal value: the EMA(9) of the MACD line (§4.2). -/
def signalLatest (xs : List ℚ) : Option ℚ :=
  emaLatest 9 (macdList xs)

/-- Latest MACD histogram value: MACD minus signal, defined when both are. -/
def histLatest (xs : List ℚ) : Option ℚ :=
  match macdLatest xs, signalLatest xs with
  | some m, some s => some (m - s)
  | _, _ => none

/-- Population variance of a list (§4.2 Bollinger stdev is the square root
of this). -/
def popVar (xs : List ℚ) : ℚ :=
  mean (xs.map (fun x => (x - mean xs) ^ 2))

/-- Modelled from the spec: the Bollinger upper band (§4.2),
`SMA(20) + 2 * stdev` over the trailing 20 closes; undefined while fewer
than 20 bars exist.  The band computation itself is performed by TA-Lib,
which is not in the repository source. -/
noncomputable def bbUpperLatest (xs : List ℚ) : Option ℝ :=
  if 20 ≤ xs.length then
    some (((mean (takeLast 20 xs) : ℚ) : ℝ)
      + 2 * Real.sqrt ((popVar (takeLast 20 xs) : ℚ) : ℝ))
  else none

/-- Modelled from the spec: the Bollinger lower band (§4.2),
`SMA(20) - 2 * stdev` over the trailing 20 closes. -/
noncomputable def bbLowerLatest (xs : List ℚ) : Option ℝ :=
  if 20 ≤ xs.length then
    some (((mean (takeLast 20 xs) : ℚ) : ℝ)
      - 2 * Real.sqrt ((popVar (takeLast 20 xs) : ℚ) : ℝ))
  else none

/-- True ranges: for each bar `i ≥ 1`,
`max (high i - low i) (max |high i - close (i-1)| |low i - close (i-1)|)`
(§4.2).  Takes the high/low tails and the close list, pairing each bar
with the previous close. -/
def tr3 : List ℚ → List ℚ → List ℚ → List ℚ
  | hi :: hs, li :: ls, cp :: cs =>
    max (hi - li) (max |hi - cp| |li - cp|) :: tr3 hs ls cs
  | _, _, _ => []

/-- The true-range series of a bar sequence. -/
def trList (high low close : List ℚ) : List ℚ :=
  tr3 (high.drop 1) (low.drop 1) close

/-- Modelled from the spec: ATR(14) (§4.2), the Wilder-smoothed rolling
average of the true range; undefined until 14 true ranges exist.  The ATR
computation itself is performed by TA-Lib, which is not in the repository
source. -/
def atrLatest (high low close : List ℚ) : Option ℚ :=
  if 14 ≤ (trList high low close).length then
    some (wilder (mean ((trList high low close).take 14))
      ((trList high low close).drop 14))
  else none

/-- Modelled from the spec: the raw stochastic %K at bar `i` (§4.2):
`100 * (close i - min(low,14)) / (max(high,14) - min(low,14))` over the
trailing 14 bars, undefined when the trailing range is flat
(`max = min`) or during warm-up.  The stochastic computation itself is
performed by TA-Lib, which is not in the repository source. -/
def kRawAt (high low close : List ℚ) (i : ℕ) : Option ℚ :=
  if 13 ≤ i ∧ i < close.length then
    if maxD (takeLast 14 (high.take (i + 1))) = minD (takeLast 14 (low.take (i + 1))) then
      none
    else
      some (100 * (close.getD i 0 - minD (takeLast 14 (low.take (i + 1))))
        / (maxD (takeLast 14 (high.take (i + 1))) - minD (takeLast 14 (low.take (i + 1)))))
  else none

/-- The raw %K derived series (positions 13 .. N-1). -/
def kRawList (high low close : List ℚ) : List (Option ℚ) :=
  ((List.range close.length).drop 13).map (kRawAt high low close)

/-- The 3-period mean of three optional values; undefined when any
input is undefined (the undefined marker propagates, §4.2). -/
def comb3 : Option ℚ → Option ℚ → Option ℚ → Option ℚ
  | some a, some b, some c => some ((a + b + c) / 3)
  | _, _, _ => none

/-- The sliding SMA(3) of an optional-valued series: each output position
averages three consecutive inputs and is undefined when any of them is. -/
def sma3opt : List (Option ℚ) → List (Option ℚ)
  | a :: b :: c :: rest => comb3 a b c :: sma3opt (b :: c :: rest)
  | _ => []

/-- Latest slow %K: last element of the SMA(3) of the raw %K series,
`none` during warm-up or when that element is itself undefined. -/
def stochKLatest (high low close : List ℚ) : Option ℚ :=
  ((sma3opt (kRawList high low close)).getLast?).bind id

/-- Latest slow %D: last element of the SMA(3) of the slow %K series. -/
def stochDLatest (high low close : List ℚ) : Option ℚ :=
  ((sma3opt (sma3opt (kRawList high low close))).getLast?).bind id

/-- Trend detection exactly as in the source:

`if current_sma_20 and current_sma_50:` — Python truthiness, so the branch
is taken only when both SMAs are non-None AND nonzero; inside, uptrend
when SMA20 > SMA50 and the last close exceeds SMA20, downtrend on the
mirrored conditions, otherwise sideways; `trend` stays `None` (the
undefined marker) whenever the truthiness test fails. -/
def trendOf (close : List ℚ) : Option Trend :=
  match smaLatest 20 close, smaLatest 50 close with
  | some s20, some s50 =>
    if s20 ≠ 0 ∧ s50 ≠ 0 then
      if s20 > s50 ∧ lastD close > s20 then some Trend.uptrend
      else if s20 < s50 ∧ lastD close < s20 then some Trend.downtrend
      else some Trend.sideways
    else none
  | _, _ => none

/-- The snapshot of latest indicator values assembled by the source's
success branch.  Undefined values are `none` (the NaN-check in the source
turns a NaN tail into `None`). -/
structure Snapshot where
  rsi : Option ℚ
  macd : Option ℚ
  macdSignal : Option ℚ
  macdHistogram : Option ℚ
  bbUpper : Option ℝ
  bbMiddle : Option ℚ
  bbLower : Option ℝ
  atr : Option ℚ
  stochK : Option ℚ
  stochD : Option ℚ
  sma20 : Option ℚ
  sma50 : Option ℚ
  ema20 : Option ℚ
  ema50 : Option ℚ
  trend : Option Trend
  support : ℚ
  resistance : ℚ
  currentPrice : ℚ

/-- The result of one engine call: the success record or the failure
record with an error string, exactly the two dictionary shapes the source
returns. -/
inductive CalcResult where
  | success (snap : Snapshot)
  | failure (error : String)

/-- Assemble the success snapshot from the high/low/close columns
(the volume column is converted by the source but never used). -/
noncomputable def mkSnap (high low close : List ℚ) : Snapshot where
  rsi := rsiLatest close
  macd := macdLatest close
  macdSignal := signalLatest close
  macdHistogram := histLatest close
  bbUpper := bbUpperLatest close
  bbMiddle := smaLatest 20 close
  bbLower := bbLowerLatest close
  atr := atrLatest high low close
  stochK := stochKLatest high low close
  stochD := stochDLatest high low close
  sma20 := smaLatest 20 close
  sma50 := smaLatest 50 close
  ema20 := emaLatest 20 close
  ema50 := emaLatest 50 close
  trend := trendOf close
  support := minD (takeLast 20 low)
  resistance := maxD (takeLast 20 high)
  currentPrice := lastD close

/-- The body of `calculate_indicators` inside its `try`: DataFrame
construction (row-arity check), float conversion of the close, high, low
and volume columns, then the indicator battery and assembly.  The
emptiness guard is modelled from the spec: the first TA-Lib call raises on
an empty close array and per the spec (Scenario C / `EmptyInput`) the
error indicates empty input; TA-Lib is not in the repository source. -/
noncomputable def compute (rows : List (List RawField)) : Except String Snapshot :=
  if rows.all rowOk then
    match columnQ 4 rows, columnQ 2 rows, columnQ 3 rows, columnQ 5 rows with
    | some close, some high, some low, some _vol =>
      if close.isEmpty then Except.error ("empty input")
      else Except.ok (mkSnap high low close)
    | _, _, _, _ => Except.error ("could not convert value to float")
  else Except.error ("wrong row arity")

/-- `calculate_indicators`: the whole body runs inside `try`, and `except
Exception` converts any raised error into the failure dictionary. -/
noncomputable def calculate_indicators (rows : List (List RawField)) : CalcResult :=
  match compute rows with
  | Except.ok snap => CalcResult.success snap
  | Except.error e => CalcResult.failure e

/-- A well-formed input: nonempty, every row has six fields, and the four
columns the source converts (high, low, close, volume) are numeric in
every row. -/
def validRows (rows : List (List RawField)) : Prop :=
  rows ≠ [] ∧ rows.all rowOk = true ∧
    ∀ r ∈ rows, (getNum r 2).isSome ∧ (getNum r 3).isSome ∧
      (getNum r 4).isSome ∧ (getNum r 5).isSome

instance : DecidablePred validRows := fun rows => by
  unfold validRows
  infer_instance

/-- Row-by-row agreement on the high, low, close and volume fields
(positions 2..5) and on the row arity; the timestamp and open fields
(positions 0 and 1) are unconstrained. -/
def agreeRow (r1 r2 : List RawField) : Bool :=
  decide (r1.length = r2.length) && decide (r1[2]? = r2[2]?) &&
    decide (r1[3]? = r2[3]?) && decide (r1[4]? = r2[4]?) &&
    decide (r1[5]? = r2[5]?)

/-- Row-list agreement: equal length and row-by-row `agreeRow`. -/
def agreeRows : List (List RawField) → List (List RawField) → Bool
  | [], [] => true
  | r1 :: t1, r2 :: t2 => agreeRow r1 r2 && agreeRows t1 t2
  | _, _ => false

/-! ### Helper lemmas about the embedded pipeline -/

theorem columnQ_some_length {j : ℕ} :
    ∀ {rows : List (List RawField)} {l : List ℚ},
      columnQ j rows = some l → l.length = rows.length := by
  intro rows
  induction rows with
  | nil =>
    intro l h
    simp [columnQ] at h
    simp [← h]
  | cons r rs ih =>
    intro l h
    simp only [columnQ] at h
    cases hg : getNum r j with
    | none => rw [hg] at h; exact absurd h (by simp)
    | some q =>
      rw [hg] at h
      cases hc : columnQ j rs with
      | none => rw [hc] at h; exact absurd h (by simp)
      | some l2 =>
        rw [hc] at h
        simp at h
        subst h
        simp [ih hc]

theorem columnQ_total (j : ℕ) :
    ∀ {rows : List (List RawField)},
      (∀ r ∈ rows, (getNum r j).isSome) → ∃ l, columnQ j rows = some l := by
  intro rows
  induction rows with
  | nil => intro _; exact ⟨[], rfl⟩
  | cons r rs ih =>
    intro h
    obtain ⟨q, hq⟩ := Option.isSome_iff_exists.mp (h r (by simp))
    obtain ⟨l, hl⟩ := ih (fun r hr => h r (by simp [hr]))
    exact ⟨q :: l, by simp [columnQ, hq, hl]⟩

theorem compute_valid {rows : List (List RawField)} {high low close vol : List ℚ}
    (hok : rows.all rowOk = true)
    (hc : columnQ 4 rows = some close) (hh : columnQ 2 rows = some high)
    (hl : columnQ 3 rows = some low) (hv : columnQ 5 rows = some vol)
    (hne : close.isEmpty = false) :
    calculate_indicators rows = CalcResult.success (mkSnap high low close) := by
  unfold calculate_indicators compute
  rw [hok, hc, hh, hl, hv]
  simp [hne]

theorem validRows_columns {rows : List (List RawField)} (hv : validRows rows) :
    ∃ high low close vol : List ℚ,
      columnQ 2 rows = some high ∧ columnQ 3 rows = some low ∧
      columnQ 4 rows = some close ∧ columnQ 5 rows = some vol ∧
      high.length = rows.length ∧ low.length = rows.length ∧
      close.length = rows.length ∧ close.isEmpty = false := by
  obtain ⟨hne, hok, hfields⟩ := hv
  obtain ⟨high, hhigh⟩ := columnQ_total 2 (fun r hr => (hfields r hr).1)
  obtain ⟨low, hlow⟩ := columnQ_total 3 (fun r hr => (hfields r hr).2.1)
  obtain ⟨close, hclose⟩ := columnQ_total 4 (fun r hr => (hfields r hr).2.2.1)
  obtain ⟨vol, hvol⟩ := columnQ_total 5 (fun r hr => (hfields r hr).2.2.2)
  refine ⟨high, low, close, vol, hhigh, hlow, hclose, hvol,
    columnQ_some_length hhigh, columnQ_some_length hlow,
    columnQ_some_length hclose, ?_⟩
  have hlen := columnQ_some_length hclose
  cases close with
  | nil =>
    exact absurd (by simpa using hlen.symm) (by simpa using hne)
  | cons a l => rfl

theorem foldl_max_init (a : ℚ) (l : List ℚ) : a ≤ l.foldl max a := by
  induction l generalizing a with
  | nil => exact le_refl a
  | cons y ys ih => exact le_trans (le_max_left a y) (ih (max a y))

theorem foldl_max_mem {x : ℚ} (a : ℚ) {l : List ℚ} (hx : x ∈ l) :
    x ≤ l.foldl max a := by
  induction l generalizing a with
  | nil => cases hx
  | cons y ys ih =>
    rcases List.mem_cons.mp hx with h | h
    · subst h
      exact le_trans (le_max_right a x) (foldl_max_init (max a x) ys)
    · exact ih _ h

theorem maxD_ge {x : ℚ} {l : List ℚ} (hx : x ∈ l) : x ≤ maxD l := by
  cases l with
  | nil => cases hx
  | cons y ys =>
    rcases List.mem_cons.mp hx with h | h
    · subst h; exact foldl_max_init x ys
    · exact foldl_max_mem y h

theorem foldl_min_init (a : ℚ) (l : List ℚ) : l.foldl min a ≤ a := by
  induction l generalizing a with
  | nil => exact le_refl a
  | cons y ys ih => exact le_trans (ih (min a y)) (min_le_left a y)

theorem foldl_min_mem {x : ℚ} (a : ℚ) {l : List ℚ} (hx : x ∈ l) :
    l.foldl min a ≤ x := by
  induction l generalizing a with
  | nil => cases hx
  | cons y ys ih =>
    rcases List.mem_cons.mp hx with h | h
    · subst h
      exact le_trans (foldl_min_init (min a x) ys) (min_le_right a x)
    · exact ih _ h

theorem minD_le {x : ℚ} {l : List ℚ} (hx : x ∈ l) : minD l ≤ x := by
  cases l with
  | nil => cases hx
  | cons y ys =>
    rcases List.mem_cons.mp hx with h | h
    · subst h; exact foldl_min_init x ys
    · exact foldl_min_mem y h

theorem takeLast_length {α : Type} (n : ℕ) (xs : List α) :
    (takeLast n xs).length = min n xs.length := by
  simp [takeLast]
  omega

/-! ### Warm-up lemmas: short series make each indicator undefined -/

theorem smaLatest_none {n : ℕ} {xs : List ℚ} (h : xs.length < n) :
    smaLatest n xs = none := by
  simp only [smaLatest, ite_eq_right_iff]
  intro hc
  omega

theorem emaSeries_nil {n : ℕ} {xs : List ℚ} (h : xs.length < n) :
    emaSeries n xs = [] := by
  simp only [emaSeries, ite_eq_right_iff]
  intro hc
  omega

theorem emaSeries_length (n : ℕ) (xs : List ℚ) (h0 : 0 < n) (h : n ≤ xs.length) :
    (emaSeries n xs).length = xs.length - n + 1 := by
  simp [emaSeries, h0, h, List.length_scanl]

theorem emaLatest_none {n : ℕ} {xs : List ℚ} (h : xs.length < n) :
    emaLatest n xs = none := by
  simp [emaLatest, emaSeries_nil h]

theorem deltas_length (xs : List ℚ) : (deltas xs).length = xs.length - 1 := by
  simp [deltas]

theorem rsiLatest_none {xs : List ℚ} (h : xs.length < 15) :
    rsiLatest xs = none := by
  have hd : (deltas xs).length < 14 := by rw [deltas_length]; omega
  simp only [rsiLatest, ite_eq_right_iff]
  intro hc
  omega

theorem macdList_length_le (xs : List ℚ) :
    (macdList xs).length ≤ xs.length - 25 := by
  unfold macdList
  rw [List.length_zipWith]
  by_cases h : 26 ≤ xs.length
  · rw [emaSeries_length 26 xs (by omega) h]
    omega
  · rw [@emaSeries_nil 26 xs (by omega)]
    simp

theorem macdLatest_none {xs : List ℚ} (h : xs.length < 26) :
    macdLatest xs = none := by
  have := macdList_length_le xs
  have hz : (macdList xs).length = 0 := by omega
  rw [macdLatest, List.length_eq_zero.mp hz]
  rfl

theorem signalLatest_none {xs : List ℚ} (h : xs.length < 34) :
    signalLatest xs = none := by
  have := macdList_length_le xs
  exact emaLatest_none (by omega)

theorem histLatest_none {xs : List ℚ} (h : xs.length < 34) :
    histLatest xs = none := by
  rw [histLatest, signalLatest_none h]
  cases macdLatest xs <;> rfl

theorem bbUpperLatest_none {xs : List ℚ} (h : xs.length < 20) :
    bbUpperLatest xs = none := by
  simp only [bbUpperLatest, ite_eq_right_iff]
  intro hc
  omega

theorem bbLowerLatest_none {xs : List ℚ} (h : xs.length < 20) :
    bbLowerLatest xs = none := by
  simp only [bbLowerLatest, ite_eq_right_iff]
  intro hc
  omega

theorem tr3_length : ∀ (a b c : List ℚ),
    (tr3 a b c).length = min (min a.length b.length) c.length
  | hi :: hs, li :: ls, cp :: cs => by
    simp only [tr3, List.length_cons, tr3_length hs ls cs]
    omega
  | [], b, c => by cases b <;> cases c <;> simp [tr3]
  | _ :: _, [], c => by cases c <;> simp [tr3]
  | _ :: _, _ :: _, [] => by simp [tr3]

theorem trList_length {high low close : List ℚ}
    (h1 : high.length = close.length) (h2 : low.length = close.length) :
    (trList high low close).length = close.length - 1 := by
  unfold trList
  rw [tr3_length]
  simp [h1, h2]

theorem atrLatest_none {high low close : List ℚ}
    (h1 : high.length = close.length) (h2 : low.length = close.length)
    (h : close.length < 15) :
    atrLatest high low close = none := by
  have := trList_length h1 h2
  simp only [atrLatest, ite_eq_right_iff]
  intro hc
  omega

theorem sma3opt_length : ∀ l : List (Option ℚ), (sma3opt l).length = l.length - 2
  | [] => rfl
  | [_] => rfl
  | [_, _] => rfl
  | a :: b :: c :: rest => by
    simp only [sma3opt, List.length_cons, sma3opt_length (b :: c :: rest)]
    omega

theorem sma3opt_short {l : List (Option ℚ)} (h : l.length < 3) :
    sma3opt l = [] := by
  match l, h with
  | [], _ => rfl
  | [_], _ => rfl
  | [_, _], _ => rfl

theorem kRawList_length (high low close : List ℚ) :
    (kRawList high low close).length = close.length - 13 := by
  simp [kRawList]

theorem stochKLatest_none {high low close : List ℚ} (h : close.length < 16) :
    stochKLatest high low close = none := by
  have hk : (kRawList high low close).length < 3 := by
    rw [kRawList_length]; omega
  simp [stochKLatest, sma3opt_short hk]

theorem stochDLatest_none {high low close : List ℚ} (h : close.length < 18) :
    stochDLatest high low close = none := by
  have hk : (sma3opt (kRawList high low close)).length < 3 := by
    rw [sma3opt_length, kRawList_length]; omega
  simp [stochDLatest, sma3opt_short hk]

/-! ### RSI bound lemmas -/

theorem mean_nonneg {l : List ℚ} (h : ∀ x ∈ l, 0 ≤ x) : 0 ≤ mean l :=
  div_nonneg (List.sum_nonneg h) (Nat.cast_nonneg _)

theorem wilder_nonneg {seed : ℚ} {rest : List ℚ} (hs : 0 ≤ seed)
    (hr : ∀ x ∈ rest, 0 ≤ x) : 0 ≤ wilder seed rest := by
  unfold wilder
  induction rest generalizing seed with
  | nil => exact hs
  | cons y ys ih =>
    simp only [List.foldl_cons]
    refine ih ?_ ?_
    · have hy : 0 ≤ y := hr y (by simp)
      have : 0 ≤ seed * 13 + y := by positivity
      positivity
    · intro x hx
      exact hr x (by simp [hx])

theorem rsiFromAvgs_bounds {ag al : ℚ} (hg : 0 ≤ ag) (hl : 0 ≤ al) :
    0 ≤ rsiFromAvgs ag al ∧ rsiFromAvgs ag al ≤ 100 := by
  unfold rsiFromAvgs
  split
  · norm_num
  · next hne =>
    have hal : 0 < al := lt_of_le_of_ne hl (Ne.symm hne)
    have hrs : 0 ≤ ag / al := div_nonneg hg hal.le
    have h1 : (0 : ℚ) < 1 + ag / al := by linarith
    have h2 : 100 / (1 + ag / al) ≤ 100 := div_le_self (by norm_num) (by linarith)
    have h3 : 0 < 100 / (1 + ag / al) := div_pos (by norm_num) h1
    constructor <;> linarith

theorem rsiLatest_bounds {xs : List ℚ} {r : ℚ} (h : rsiLatest xs = some r) :
    0 ≤ r ∧ r ≤ 100 := by
  unfold rsiLatest at h
  split at h
  · have hval := Option.some_injective _ h
    subst hval
    have hgain : ∀ x ∈ (deltas xs).map (fun x => max x 0), 0 ≤ x := by
      intro x hx
      obtain ⟨y, _, hy⟩ := List.mem_map.mp hx
      rw [← hy]
      exact le_max_right y 0
    have hloss : ∀ x ∈ (deltas xs).map (fun x => max (-x) 0), 0 ≤ x := by
      intro x hx
      obtain ⟨y, _, hy⟩ := List.mem_map.mp hx
      rw [← hy]
      exact le_max_right (-y) 0
    refine rsiFromAvgs_bounds ?_ ?_
    · exact wilder_nonneg
        (mean_nonneg (fun x hx => hgain x (List.take_subset _ _ hx)))
        (fun x hx => hgain x (List.drop_subset _ _ hx))
    · exact wilder_nonneg
        (mean_nonneg (fun x hx => hloss x (List.take_subset _ _ hx)))
        (fun x hx => hloss x (List.drop_subset _ _ hx))
  · exact absurd h (by simp)

/-! ### Stochastic lemmas: flat range propagates the undefined marker -/

theorem comb3_third_none (a b : Option ℚ) : comb3 a b none = none := by
  cases a <;> cases b <;> rfl

theorem sma3opt_last_none : ∀ l : List (Option ℚ), l.getLast? = some none →
    sma3opt l = [] ∨ (sma3opt l).getLast? = some none
  | [] => fun h => by simp at h
  | [_] => fun _ => Or.inl rfl
  | [_, _] => fun _ => Or.inl rfl
  | [a, b, c] => fun h => by
    have hc : c = none := by simpa using h
    subst hc
    right
    simp [sma3opt, comb3_third_none]
  | a :: b :: c :: d :: rest => fun h => by
    have h2 : (b :: c :: d :: rest).getLast? = some none := by
      rw [← List.getLast?_cons_cons]
      exact h
    rcases sma3opt_last_none (b :: c :: d :: rest) h2 with h3 | h3
    · exfalso
      have hlen := sma3opt_length (b :: c :: d :: rest)
      rw [h3] at hlen
      simp at hlen
    · right
      show (comb3 a b c :: sma3opt (b :: c :: d :: rest)).getLast? = some none
      match hs : sma3opt (b :: c :: d :: rest) with
      | [] =>
        exfalso
        have hlen := sma3opt_length (b :: c :: d :: rest)
        rw [hs] at hlen
        simp at hlen
      | y :: ys =>
        rw [hs] at h3
        rw [List.getLast?_cons_cons]
        exact h3

theorem stoch_last_none {L : List (Option ℚ)} (h : L.getLast? = some none) :
    ((sma3opt L).getLast?).bind id = none ∧
      ((sma3opt (sma3opt L)).getLast?).bind id = none := by
  rcases sma3opt_last_none L h with h1 | h1
  · rw [h1]
    exact ⟨rfl, rfl⟩
  · constructor
    · rw [h1]
      rfl
    · rcases sma3opt_last_none (sma3opt L) h1 with h2 | h2
      · rw [h2]
        rfl
      · rw [h2]
        rfl

theorem kRawList_getLast {high low close : List ℚ} (h : 14 ≤ close.length) :
    (kRawList high low close).getLast?
      = some (kRawAt high low close (close.length - 1)) := by
  unfold kRawList
  rw [List.getLast?_map, List.getLast?_eq_getElem?]
  simp only [List.length_drop, List.length_range]
  rw [List.getElem?_drop, List.getElem?_range (by omega)]
  have he : 13 + (close.length - 13 - 1) = close.length - 1 := by omega
  rw [he]
  rfl

theorem kRawAt_flat {high low close : List ℚ} (i : ℕ)
    (h13 : 13 ≤ i) (hi : i < close.length)
    (hflat : maxD (takeLast 14 (high.take (i + 1)))
      = minD (takeLast 14 (low.take (i + 1)))) :
    kRawAt high low close i = none := by
  unfold kRawAt
  rw [if_pos ⟨h13, hi⟩]
  simp [hflat]

/-! ### Noninterference lemmas: only row arity and columns 2..5 matter -/

theorem getNum_congr {r1 r2 : List RawField} {j : ℕ} (h : r1[j]? = r2[j]?) :
    getNum r1 j = getNum r2 j := by
  unfold getNum
  rw [h]

theorem agreeRows_all_rowOk : ∀ {r1 r2 : List (List RawField)},
    agreeRows r1 r2 = true → r1.all rowOk = r2.all rowOk
  | [], [], _ => rfl
  | [], _ :: _, h => by simp [agreeRows] at h
  | _ :: _, [], h => by simp [agreeRows] at h
  | a :: t1, b :: t2, h => by
    simp only [agreeRows, Bool.and_eq_true] at h
    obtain ⟨hr, ht⟩ := h
    simp only [agreeRow, Bool.and_eq_true, decide_eq_true_eq] at hr
    have hlen : a.length = b.length := hr.1.1.1.1
    simp [List.all_cons, rowOk, hlen, agreeRows_all_rowOk ht]

theorem agreeRows_columns : ∀ {r1 r2 : List (List RawField)},
    agreeRows r1 r2 = true →
      columnQ 2 r1 = columnQ 2 r2 ∧ columnQ 3 r1 = columnQ 3 r2 ∧
      columnQ 4 r1 = columnQ 4 r2 ∧ columnQ 5 r1 = columnQ 5 r2
  | [], [], _ => ⟨rfl, rfl, rfl, rfl⟩
  | [], _ :: _, h => by simp [agreeRows] at h
  | _ :: _, [], h => by simp [agreeRows] at h
  | a :: t1, b :: t2, h => by
    simp only [agreeRows, Bool.and_eq_true] at h
    obtain ⟨hr, ht⟩ := h
    simp only [agreeRow, Bool.and_eq_true, decide_eq_true_eq] at hr
    obtain ⟨⟨⟨⟨_, e2⟩, e3⟩, e4⟩, e5⟩ := hr
    obtain ⟨c2, c3, c4, c5⟩ := agreeRows_columns ht
    refine ⟨?_, ?_, ?_, ?_⟩
    · simp only [columnQ]
      rw [getNum_congr e2, c2]
    · simp only [columnQ]
      rw [getNum_congr e3, c3]
    · simp only [columnQ]
      rw [getNum_congr e4, c4]
    · simp only [columnQ]
      rw [getNum_congr e5, c5]

theorem calc_congr {r1 r2 : List (List RawField)}
    (hok : r1.all rowOk = r2.all rowOk)
    (h2 : columnQ 2 r1 = columnQ 2 r2) (h3 : columnQ 3 r1 = columnQ 3 r2)
    (h4 : columnQ 4 r1 = columnQ 4 r2) (h5 : columnQ 5 r1 = columnQ 5 r2) :
    calculate_indicators r1 = calculate_indicators r2 := by
  unfold calculate_indicators compute
  rw [hok, h2, h3, h4, h5]

theorem columnQ_none_of_mem {j : ℕ} :
    ∀ {rows : List (List RawField)} {r : List RawField},
      r ∈ rows → getNum r j = none → columnQ j rows = none := by
  intro rows
  induction rows with
  | nil => intro r hr; cases hr
  | cons a rs ih =>
    intro r hr hn
    rcases List.mem_cons.mp hr with h | h
    · subst h
      simp [columnQ, hn]
    · rw [columnQ, ih h hn]
      cases getNum a j <;> rfl

/-! ### Claim theorems -/

/-- Claim C2: for every input (of any shape), `calculate_indicators` never
raises: it returns either a success result carrying the indicator snapshot
or a failure result carrying an error string; no partial-success shape
exists. -/
theorem calc_total_result_shape (rows : List (List RawField)) :
    (∃ snap, calculate_indicators rows = CalcResult.success snap) ∨
      (∃ e, calculate_indicators rows = CalcResult.failure e) := by
  unfold calculate_indicators
  cases compute rows with
  | ok s => exact Or.inl ⟨s, rfl⟩
  | error e => exact Or.inr ⟨e, rfl⟩

/-- Claim C6: with zero bars supplied, the result is a failure whose error
string indicates empty input. -/
theorem empty_input_failure :
    calculate_indicators [] = CalcResult.failure ("empty input") := rfl

/-- Claim C10: the result is independent of the timestamp and open
columns — two inputs of equal shape that agree row-by-row on the high,
low, close and volume fields (positions 2..5) produce identical results. -/
theorem calc_ignores_timestamp_open (rows1 rows2 : List (List RawField))
    (h : agreeRows rows1 rows2 = true) :
    calculate_indicators rows1 = calculate_indicators rows2 := by
  obtain ⟨c2, c3, c4, c5⟩ := agreeRows_columns h
  exact calc_congr (agreeRows_all_rowOk h) c2 c3 c4 c5

/-- Witness for C10: two concrete one-row inputs differing in the
timestamp and open fields give identical results. -/
theorem calc_ignores_timestamp_open_witness :
    agreeRows
        [[RawField.num 1, RawField.num 2, RawField.num 3, RawField.num 4,
          RawField.num 5, RawField.num 6]]
        [[RawField.nonnum, RawField.num 7, RawField.num 3, RawField.num 4,
          RawField.num 5, RawField.num 6]] = true ∧
      calculate_indicators
        [[RawField.num 1, RawField.num 2, RawField.num 3, RawField.num 4,
          RawField.num 5, RawField.num 6]]
      = calculate_indicators
        [[RawField.nonnum, RawField.num 7, RawField.num 3, RawField.num 4,
          RawField.num 5, RawField.num 6]] :=
  ⟨by decide, calc_ignores_timestamp_open _ _ (by decide)⟩

/-- Claim C1 (failing input): on 50 bars whose prices are all zero, both
SMA-20 and SMA-50 are defined (and equal 0), yet the reported trend is the
undefined marker — the source's Python truthiness test
`if current_sma_20 and current_sma_50:` treats the defined value 0.0 as
false, where the spec classifies this situation as `sideways`. -/
theorem trend_truthiness_zero_sma :
    ∃ snap,
      calculate_indicators
          (List.replicate 50 (List.replicate 6 (RawField.num 0)))
        = CalcResult.success snap ∧
      snap.sma20 = some 0 ∧ snap.sma50 = some 0 ∧ snap.trend = none := by
  have hok : (List.replicate 50 (List.replicate 6 (RawField.num 0))).all rowOk
      = true := by decide
  have hc : columnQ 4 (List.replicate 50 (List.replicate 6 (RawField.num 0)))
      = some (List.replicate 50 (0 : ℚ)) := by decide
  have hh : columnQ 2 (List.replicate 50 (List.replicate 6 (RawField.num 0)))
      = some (List.replicate 50 (0 : ℚ)) := by decide
  have hl : columnQ 3 (List.replicate 50 (List.replicate 6 (RawField.num 0)))
      = some (List.replicate 50 (0 : ℚ)) := by decide
  have hv : columnQ 5 (List.replicate 50 (List.replicate 6 (RawField.num 0)))
      = some (List.replicate 50 (0 : ℚ)) := by decide
  have hne : (List.replicate 50 (0 : ℚ)).isEmpty = false := by decide
  have hmean : ∀ n : ℕ, mean (takeLast n (List.replicate 50 (0 : ℚ))) = 0 := by
    intro n
    have hz : ∀ x ∈ takeLast n (List.replicate 50 (0 : ℚ)), x = 0 := fun x hx =>
      List.eq_of_mem_replicate (List.drop_subset _ _ hx)
    unfold mean
    rw [List.sum_eq_zero hz, zero_div]
  have hs20 : smaLatest 20 (List.replicate 50 (0 : ℚ)) = some 0 := by
    have hcond : 0 < 20 ∧ 20 ≤ (List.replicate 50 (0 : ℚ)).length := by
      rw [List.length_replicate]
      omega
    unfold smaLatest
    rw [if_pos hcond, hmean]
  have hs50 : smaLatest 50 (List.replicate 50 (0 : ℚ)) = some 0 := by
    have hcond : 0 < 50 ∧ 50 ≤ (List.replicate 50 (0 : ℚ)).length := by
      rw [List.length_replicate]
      omega
    unfold smaLatest
    rw [if_pos hcond, hmean]
  refine ⟨mkSnap (List.replicate 50 (0 : ℚ)) (List.replicate 50 (0 : ℚ))
    (List.replicate 50 (0 : ℚ)), compute_valid hok hc hh hl hv hne, ?_, ?_, ?_⟩
  · exact hs20
  · exact hs50
  · show trendOf (List.replicate 50 (0 : ℚ)) = none
    unfold trendOf
    rw [hs20, hs50]
    simp

/-- Counterexample to C7 as stated: an input containing a row with a
non-numeric field (its timestamp, position 0) on which the call
nevertheless succeeds — the source never converts the timestamp or open
columns to float, so a malformed value there is not detected. -/
theorem nonnumeric_field_can_succeed :
    (∃ r ∈ [[RawField.nonnum, RawField.num 1, RawField.num 1, RawField.num 1,
        RawField.num 1, RawField.num 1]], ∃ f ∈ r, f = RawField.nonnum) ∧
      ∃ snap, calculate_indicators
          [[RawField.nonnum, RawField.num 1, RawField.num 1, RawField.num 1,
            RawField.num 1, RawField.num 1]]
        = CalcResult.success snap := by
  constructor
  · decide
  · exact ⟨mkSnap [1] [1] [1],
      compute_valid (by decide) (by decide) (by decide) (by decide)
        (show columnQ 5 [[RawField.nonnum, RawField.num 1, RawField.num 1,
          RawField.num 1, RawField.num 1, RawField.num 1]] = some [1] by decide)
        (by decide)⟩

/-- Claim C7 (amended): the call fails whenever some row has the wrong
arity, or whenever some row has a non-numeric field in one of the
high/low/close/volume positions (2..5) — the columns the source actually
converts to float.  A non-numeric timestamp or open field (positions 0..1)
does not by itself cause failure. -/
theorem malformed_row_failure (rows : List (List RawField))
    (h : rows.all rowOk = false ∨
      ∃ r ∈ rows, getNum r 2 = none ∨ getNum r 3 = none ∨
        getNum r 4 = none ∨ getNum r 5 = none) :
    ∃ e, calculate_indicators rows = CalcResult.failure e := by
  unfold calculate_indicators compute
  by_cases hok : rows.all rowOk = true
  · rcases h with hfalse | ⟨r, hr, hj⟩
    · rw [hok] at hfalse
      exact absurd hfalse (by simp)
    · rw [if_pos hok]
      have hnone : columnQ 2 rows = none ∨ columnQ 3 rows = none ∨
          columnQ 4 rows = none ∨ columnQ 5 rows = none := by
        rcases hj with hj | hj | hj | hj
        · exact Or.inl (columnQ_none_of_mem hr hj)
        · exact Or.inr (Or.inl (columnQ_none_of_mem hr hj))
        · exact Or.inr (Or.inr (Or.inl (columnQ_none_of_mem hr hj)))
        · exact Or.inr (Or.inr (Or.inr (columnQ_none_of_mem hr hj)))
      cases hc4 : columnQ 4 rows with
      | none => exact ⟨_, rfl⟩
      | some c =>
        cases hc2 : columnQ 2 rows with
        | none => exact ⟨_, rfl⟩
        | some hgh =>
          cases hc3 : columnQ 3 rows with
          | none => exact ⟨_, rfl⟩
          | some lw =>
            cases hc5 : columnQ 5 rows with
            | none => exact ⟨_, rfl⟩
            | some vl =>
              exfalso
              rcases hnone with hn | hn | hn | hn
              · rw [hc2] at hn
                exact absurd hn (by simp)
              · rw [hc3] at hn
                exact absurd hn (by simp)
              · rw [hc4] at hn
                exact absurd hn (by simp)
              · rw [hc5] at hn
                exact absurd hn (by simp)
  · rw [if_neg hok]
    exact ⟨_, rfl⟩

/-- Witness for the amended C7: a concrete row with a non-numeric high
field (position 2) makes the call fail. -/
theorem malformed_row_failure_witness :
    ([[RawField.num 0, RawField.num 0, RawField.nonnum, RawField.num 0,
        RawField.num 0, RawField.num 0]].all rowOk = false ∨
      ∃ r ∈ [[RawField.num 0, RawField.num 0, RawField.nonnum, RawField.num 0,
        RawField.num 0, RawField.num 0]], getNum r 2 = none ∨ getNum r 3 = none ∨
        getNum r 4 = none ∨ getNum r 5 = none) ∧
      ∃ e, calculate_indicators
          [[RawField.num 0, RawField.num 0, RawField.nonnum, RawField.num 0,
            RawField.num 0, RawField.num 0]]
        = CalcResult.failure e :=
  ⟨by decide, malformed_row_failure _ (by decide)⟩

/-- Claim C3: on a valid series shorter than an indicator's minimum
length, that indicator's reported latest value is the undefined marker and
the call still succeeds: SMA-20/EMA-20 and Bollinger need 20 bars, RSI and
ATR need 15, MACD needs 26 and its signal/histogram 34, the slow
stochastic needs 16 (18 for %D), SMA-50/EMA-50 need 50; in particular at
N = 10 all of RSI, MACD, Bollinger, ATR, Stochastic, SMA-50 and EMA-50 are
undefined. -/
theorem short_series_all_undefined (rows : List (List RawField))
    (hv : validRows rows) :
    ∃ snap, calculate_indicators rows = CalcResult.success snap ∧
      (rows.length < 20 → snap.sma20 = none ∧ snap.ema20 = none ∧
        snap.bbUpper = none ∧ snap.bbMiddle = none ∧ snap.bbLower = none) ∧
      (rows.length < 15 → snap.rsi = none ∧ snap.atr = none) ∧
      (rows.length < 26 → snap.macd = none) ∧
      (rows.length < 34 → snap.macdSignal = none ∧ snap.macdHistogram = none) ∧
      (rows.length < 16 → snap.stochK = none) ∧
      (rows.length < 18 → snap.stochD = none) ∧
      (rows.length < 50 → snap.sma50 = none ∧ snap.ema50 = none) := by
  obtain ⟨high, low, close, vol, hh, hl, hc, hvol, hlh, hll, hlc, hne⟩ :=
    validRows_columns hv
  refine ⟨mkSnap high low close, compute_valid hv.2.1 hc hh hl hvol hne,
    ?_, ?_, ?_, ?_, ?_, ?_, ?_⟩
  · intro hlen
    exact ⟨smaLatest_none (by omega), emaLatest_none (by omega),
      bbUpperLatest_none (by omega), smaLatest_none (by omega),
      bbLowerLatest_none (by omega)⟩
  · intro hlen
    exact ⟨rsiLatest_none (by omega),
      atrLatest_none (by omega) (by omega) (by omega)⟩
  · intro hlen
    exact macdLatest_none (by omega)
  · intro hlen
    exact ⟨signalLatest_none (by omega), histLatest_none (by omega)⟩
  · intro hlen
    exact stochKLatest_none (by omega)
  · intro hlen
    exact stochDLatest_none (by omega)
  · intro hlen
    exact ⟨smaLatest_none (by omega), emaLatest_none (by omega)⟩

/-- Witness for C3: a concrete valid series of 10 identical bars. -/
theorem short_series_all_undefined_witness :
    validRows (List.replicate 10 (List.replicate 6 (RawField.num 1))) ∧
      (∃ snap, calculate_indicators
          (List.replicate 10 (List.replicate 6 (RawField.num 1)))
        = CalcResult.success snap ∧
      ((List.replicate 10 (List.replicate 6 (RawField.num 1))).length < 20 →
        snap.sma20 = none ∧ snap.ema20 = none ∧
        snap.bbUpper = none ∧ snap.bbMiddle = none ∧ snap.bbLower = none) ∧
      ((List.replicate 10 (List.replicate 6 (RawField.num 1))).length < 15 →
        snap.rsi = none ∧ snap.atr = none) ∧
      ((List.replicate 10 (List.replicate 6 (RawField.num 1))).length < 26 →
        snap.macd = none) ∧
      ((List.replicate 10 (List.replicate 6 (RawField.num 1))).length < 34 →
        snap.macdSignal = none ∧ snap.macdHistogram = none) ∧
      ((List.replicate 10 (List.replicate 6 (RawField.num 1))).length < 16 →
        snap.stochK = none) ∧
      ((List.replicate 10 (List.replicate 6 (RawField.num 1))).length < 18 →
        snap.stochD = none) ∧
      ((List.replicate 10 (List.replicate 6 (RawField.num 1))).length < 50 →
        snap.sma50 = none ∧ snap.ema50 = none)) :=
  ⟨by decide, short_series_all_undefined _ (by decide)⟩

/-- Claim C4: on every valid (nonempty, well-formed) series the call
succeeds, the reported resistance is the maximum of the high column over
the trailing `min 20 N` bars and the reported support is the minimum of
the low column over the same window; the window is nonempty once N ≥ 1,
and support bounds every low in it while resistance bounds every high. -/
theorem support_resistance_window (rows : List (List RawField))
    (hv : validRows rows) :
    ∃ snap high low, calculate_indicators rows = CalcResult.success snap ∧
      columnQ 2 rows = some high ∧ columnQ 3 rows = some low ∧
      snap.resistance = maxD (takeLast 20 high) ∧
      snap.support = minD (takeLast 20 low) ∧
      (takeLast 20 high).length = min 20 rows.length ∧
      (takeLast 20 low).length = min 20 rows.length ∧
      0 < (takeLast 20 high).length ∧
      (∀ x ∈ takeLast 20 high, x ≤ snap.resistance) ∧
      (∀ x ∈ takeLast 20 low, snap.support ≤ x) := by
  obtain ⟨high, low, close, vol, hh, hl, hc, hvol, hlh, hll, hlc, hne⟩ :=
    validRows_columns hv
  have hpos : 0 < rows.length := by
    cases hrows : rows with
    | nil => exact absurd hrows hv.1
    | cons a t => simp [hrows]
  refine ⟨mkSnap high low close, high, low,
    compute_valid hv.2.1 hc hh hl hvol hne, hh, hl, rfl, rfl, ?_, ?_, ?_, ?_, ?_⟩
  · rw [takeLast_length, hlh]
  · rw [takeLast_length, hll]
  · rw [takeLast_length, hlh]
    omega
  · intro x hx
    exact maxD_ge hx
  · intro x hx
    exact minD_le hx

/-- Witness for C4: a concrete valid 2-bar series. -/
theorem support_resistance_window_witness :
    validRows [[RawField.num 0, RawField.num 1, RawField.num 9, RawField.num 2,
        RawField.num 5, RawField.num 7],
      [RawField.num 1, RawField.num 2, RawField.num 8, RawField.num 3,
        RawField.num 6, RawField.num 7]] ∧
      (∃ snap high low, calculate_indicators
          [[RawField.num 0, RawField.num 1, RawField.num 9, RawField.num 2,
            RawField.num 5, RawField.num 7],
          [RawField.num 1, RawField.num 2, RawField.num 8, RawField.num 3,
            RawField.num 6, RawField.num 7]] = CalcResult.success snap ∧
        columnQ 2 [[RawField.num 0, RawField.num 1, RawField.num 9, RawField.num 2,
            RawField.num 5, RawField.num 7],
          [RawField.num 1, RawField.num 2, RawField.num 8, RawField.num 3,
            RawField.num 6, RawField.num 7]] = some high ∧
        columnQ 3 [[RawField.num 0, RawField.num 1, RawField.num 9, RawField.num 2,
            RawField.num 5, RawField.num 7],
          [RawField.num 1, RawField.num 2, RawField.num 8, RawField.num 3,
            RawField.num 6, RawField.num 7]] = some low ∧
        snap.resistance = maxD (takeLast 20 high) ∧
        snap.support = minD (takeLast 20 low) ∧
        (takeLast 20 high).length = min 20 (2 : ℕ) ∧
        (takeLast 20 low).length = min 20 (2 : ℕ) ∧
        0 < (takeLast 20 high).length ∧
        (∀ x ∈ takeLast 20 high, x ≤ snap.resistance) ∧
        (∀ x ∈ takeLast 20 low, snap.support ≤ x)) :=
  ⟨by decide, support_resistance_window _ (by decide)⟩

/-- Claim C5: on every valid input the call succeeds and, whenever the
reported RSI is defined, its value lies in the closed interval [0, 100]. -/
theorem rsi_reported_bounded (rows : List (List RawField))
    (hv : validRows rows) :
    ∃ snap, calculate_indicators rows = CalcResult.success snap ∧
      ∀ r : ℚ, snap.rsi = some r → 0 ≤ r ∧ r ≤ 100 := by
  obtain ⟨high, low, close, vol, hh, hl, hc, hvol, hlh, hll, hlc, hne⟩ :=
    validRows_columns hv
  refine ⟨mkSnap high low close, compute_valid hv.2.1 hc hh hl hvol hne, ?_⟩
  intro r hr
  exact rsiLatest_bounds hr

/-- Witness for C5: a concrete valid series of 15 strictly increasing
closes, on which the RSI is defined (and equals 100). -/
theorem rsi_reported_bounded_witness :
    validRows ((List.range 15).map (fun i =>
        [RawField.num 0, RawField.num 0, RawField.num (i + 1),
         RawField.num 0, RawField.num (i + 1), RawField.num 0])) ∧
      (∃ snap, calculate_indicators ((List.range 15).map (fun i =>
          [RawField.num 0, RawField.num 0, RawField.num (i + 1),
           RawField.num 0, RawField.num (i + 1), RawField.num 0]))
        = CalcResult.success snap ∧
        ∀ r : ℚ, snap.rsi = some r → 0 ≤ r ∧ r ≤ 100) :=
  ⟨by decide, rsi_reported_bounded _ (by decide)⟩

theorem comb3_none {a b c : Option ℚ} (h : a = none ∨ b = none ∨ c = none) :
    comb3 a b c = none := by
  rcases h with h | h | h
  · subst h
    cases b <;> cases c <;> rfl
  · subst h
    cases a <;> cases c <;> rfl
  · subst h
    cases a <;> cases b <;> rfl

theorem takeLast_cons_of_le {α : Type} {n : ℕ} {l : List α} (x : α)
    (h : n ≤ l.length) : takeLast n (x :: l) = takeLast n l := by
  unfold takeLast
  have he : (x :: l).length - n = (l.length - n) + 1 := by
    simp only [List.length_cons]
    omega
  rw [he, List.drop_succ_cons]

theorem sma3opt_getLast : ∀ (l : List (Option ℚ)) (a b c : Option ℚ),
    takeLast 3 l = [a, b, c] → (sma3opt l).getLast? = some (comb3 a b c)
  | [], a, b, c, h => by simp [takeLast] at h
  | [x], a, b, c, h => by simp [takeLast] at h
  | [x, y], a, b, c, h => by simp [takeLast] at h
  | [x, y, z], a, b, c, h => by
    have hx : x = a ∧ y = b ∧ z = c := by simpa [takeLast] using h
    obtain ⟨rfl, rfl, rfl⟩ := hx
    rfl
  | x :: y :: z :: w :: rest, a, b, c, h => by
    have hlen : 3 ≤ (y :: z :: w :: rest).length := by
      simp only [List.length_cons]
      omega
    rw [takeLast_cons_of_le x hlen] at h
    have hrec := sma3opt_getLast (y :: z :: w :: rest) a b c h
    show (comb3 x y z :: sma3opt (y :: z :: w :: rest)).getLast?
      = some (comb3 a b c)
    match hs : sma3opt (y :: z :: w :: rest) with
    | [] =>
      exfalso
      have hl2 := sma3opt_length (y :: z :: w :: rest)
      rw [hs] at hl2
      simp at hl2
    | q :: qs =>
      rw [hs] at hrec
      rw [List.getLast?_cons_cons]
      exact hrec

theorem sma3opt_takeLast5 : ∀ (l : List (Option ℚ)) (a b c d e : Option ℚ),
    takeLast 5 l = [a, b, c, d, e] →
    takeLast 3 (sma3opt l) = [comb3 a b c, comb3 b c d, comb3 c d e]
  | [], a, b, c, d, e, h => by simp [takeLast] at h
  | [x1], a, b, c, d, e, h => by simp [takeLast] at h
  | [x1, x2], a, b, c, d, e, h => by simp [takeLast] at h
  | [x1, x2, x3], a, b, c, d, e, h => by simp [takeLast] at h
  | [x1, x2, x3, x4], a, b, c, d, e, h => by simp [takeLast] at h
  | [x1, x2, x3, x4, x5], a, b, c, d, e, h => by
    have hx : x1 = a ∧ x2 = b ∧ x3 = c ∧ x4 = d ∧ x5 = e := by
      simpa [takeLast] using h
    obtain ⟨rfl, rfl, rfl, rfl, rfl⟩ := hx
    rfl
  | x :: y :: z :: w :: u :: v :: rest, a, b, c, d, e, h => by
    have hlen5 : 5 ≤ (y :: z :: w :: u :: v :: rest).length := by
      simp only [List.length_cons]
      omega
    rw [takeLast_cons_of_le x hlen5] at h
    have hrec := sma3opt_takeLast5 (y :: z :: w :: u :: v :: rest) a b c d e h
    have hlen3 : 3 ≤ (sma3opt (y :: z :: w :: u :: v :: rest)).length := by
      rw [sma3opt_length]
      simp only [List.length_cons]
      omega
    show takeLast 3 (comb3 x y z :: sma3opt (y :: z :: w :: u :: v :: rest))
      = [comb3 a b c, comb3 b c d, comb3 c d e]
    rw [takeLast_cons_of_le (comb3 x y z) hlen3]
    exact hrec

theorem drop_range_tail (k N : ℕ) (h : k ≤ N) :
    (List.range N).drop (N - k) = List.range' (N - k) k := by
  obtain ⟨m, rfl⟩ : ∃ m, N = m + k := ⟨N - k, by omega⟩
  rw [Nat.add_sub_cancel, List.range_eq_range', Nat.add_comm m k,
    ← List.range'_append_1 0 m k, Nat.zero_add]
  exact List.drop_left' (by simp)

theorem takeLast_map {α β : Type} (f : α → β) (n : ℕ) (l : List α) :
    takeLast n (l.map f) = (takeLast n l).map f := by
  unfold takeLast
  rw [List.length_map]
  exact (List.map_drop f l _).symm

theorem takeLast_drop {α : Type} (n m : ℕ) (l : List α) (h : m + n ≤ l.length) :
    takeLast n (l.drop m) = takeLast n l := by
  unfold takeLast
  rw [List.length_drop, List.drop_drop]
  congr 1
  omega

theorem range'_three (s : ℕ) : List.range' s 3 = [s, s + 1, s + 2] := rfl

theorem range'_five (s : ℕ) :
    List.range' s 5 = [s, s + 1, s + 2, s + 3, s + 4] := rfl

theorem kRawList_takeLast3 {high low close : List ℚ} (h : 16 ≤ close.length) :
    takeLast 3 (kRawList high low close)
      = [kRawAt high low close (close.length - 3),
         kRawAt high low close (close.length - 2),
         kRawAt high low close (close.length - 1)] := by
  unfold kRawList
  rw [takeLast_map, takeLast_drop 3 13 _ (by simp; omega)]
  show (takeLast 3 (List.range close.length)).map _ = _
  unfold takeLast
  rw [List.length_range, drop_range_tail 3 _ (by omega), range'_three]
  simp only [List.map_cons, List.map_nil]
  rw [show close.length - 3 + 1 = close.length - 2 by omega,
    show close.length - 3 + 2 = close.length - 1 by omega]

theorem kRawList_takeLast5 {high low close : List ℚ} (h : 18 ≤ close.length) :
    takeLast 5 (kRawList high low close)
      = [kRawAt high low close (close.length - 5),
         kRawAt high low close (close.length - 4),
         kRawAt high low close (close.length - 3),
         kRawAt high low close (close.length - 2),
         kRawAt high low close (close.length - 1)] := by
  unfold kRawList
  rw [takeLast_map, takeLast_drop 5 13 _ (by simp; omega)]
  show (takeLast 5 (List.range close.length)).map _ = _
  unfold takeLast
  rw [List.length_range, drop_range_tail 5 _ (by omega), range'_five]
  simp only [List.map_cons, List.map_nil]
  rw [show close.length - 5 + 1 = close.length - 4 by omega,
    show close.length - 5 + 2 = close.length - 3 by omega,
    show close.length - 5 + 3 = close.length - 2 by omega,
    show close.length - 5 + 4 = close.length - 1 by omega]

/-- Claim C8: a flat trailing range never leaks a numeric sentinel: at
every bar whose trailing-14 high maximum equals its trailing-14 low
minimum the raw stochastic %K is the undefined marker, and whenever the
raw %K is undefined at any bar the reported slow %K depends on (one of
the last three bars) the reported slow %K is the undefined marker, and
likewise the reported slow %D for any of the last five bars. -/
theorem stoch_flat_undefined (rows : List (List RawField))
    (high low close : List ℚ) (hv : validRows rows)
    (hh : columnQ 2 rows = some high) (hl : columnQ 3 rows = some low)
    (hc : columnQ 4 rows = some close) :
    ∃ snap, calculate_indicators rows = CalcResult.success snap ∧
      (∀ i, 13 ≤ i → i < close.length →
        maxD (takeLast 14 (high.take (i + 1)))
          = minD (takeLast 14 (low.take (i + 1))) →
        kRawAt high low close i = none) ∧
      (∀ i, close.length - 3 ≤ i → i < close.length →
        kRawAt high low close i = none → snap.stochK = none) ∧
      (∀ i, close.length - 5 ≤ i → i < close.length →
        kRawAt high low close i = none → snap.stochD = none) := by
  obtain ⟨h2, l2, c2, vol, hh2, hl2, hc2, hvol, hlh, hll, hlc, hne⟩ :=
    validRows_columns hv
  rw [hh] at hh2
  rw [hl] at hl2
  rw [hc] at hc2
  obtain rfl : high = h2 := Option.some_injective _ hh2
  obtain rfl : low = l2 := Option.some_injective _ hl2
  obtain rfl : close = c2 := Option.some_injective _ hc2
  refine ⟨mkSnap high low close, compute_valid hv.2.1 hc hh hl hvol hne,
    fun i h13 hi hfl => kRawAt_flat i h13 hi hfl, ?_, ?_⟩
  · intro i hge hlt hnone
    show stochKLatest high low close = none
    by_cases h16 : 16 ≤ close.length
    · have hbr := @kRawList_takeLast3 high low close h16
      have hgl := sma3opt_getLast (kRawList high low close) _ _ _ hbr
      unfold stochKLatest
      rw [hgl, Option.some_bind]
      show comb3 _ _ _ = none
      have hcases : i = close.length - 3 ∨ i = close.length - 2 ∨
          i = close.length - 1 := by omega
      apply comb3_none
      rcases hcases with rfl | rfl | rfl
      · exact Or.inl hnone
      · exact Or.inr (Or.inl hnone)
      · exact Or.inr (Or.inr hnone)
    · exact stochKLatest_none (by omega)
  · intro i hge hlt hnone
    show stochDLatest high low close = none
    by_cases h18 : 18 ≤ close.length
    · have hbr5 := @kRawList_takeLast5 high low close h18
      have hbr3 := sma3opt_takeLast5 (kRawList high low close) _ _ _ _ _ hbr5
      have hgl := sma3opt_getLast (sma3opt (kRawList high low close)) _ _ _ hbr3
      unfold stochDLatest
      rw [hgl, Option.some_bind]
      show comb3 _ _ _ = none
      have hcases : i = close.length - 5 ∨ i = close.length - 4 ∨
          i = close.length - 3 ∨ i = close.length - 2 ∨
          i = close.length - 1 := by omega
      apply comb3_none
      rcases hcases with rfl | rfl | rfl | rfl | rfl
      · exact Or.inl (comb3_none (Or.inl hnone))
      · exact Or.inl (comb3_none (Or.inr (Or.inl hnone)))
      · exact Or.inl (comb3_none (Or.inr (Or.inr hnone)))
      · exact Or.inr (Or.inl (comb3_none (Or.inr (Or.inr hnone))))
      · exact Or.inr (Or.inr (comb3_none (Or.inr (Or.inr hnone))))
    · exact stochDLatest_none (by omega)

/-- Witness for C8: 14 identical all-zero bars; every hypothesis of the
theorem is discharged at this concrete input. -/
theorem stoch_flat_undefined_witness :
    (validRows (List.replicate 14 (List.replicate 6 (RawField.num 0))) ∧
      columnQ 2 (List.replicate 14 (List.replicate 6 (RawField.num 0)))
        = some (List.replicate 14 (0 : ℚ)) ∧
      columnQ 3 (List.replicate 14 (List.replicate 6 (RawField.num 0)))
        = some (List.replicate 14 (0 : ℚ)) ∧
      columnQ 4 (List.replicate 14 (List.replicate 6 (RawField.num 0)))
        = some (List.replicate 14 (0 : ℚ))) ∧
    (∃ snap, calculate_indicators
        (List.replicate 14 (List.replicate 6 (RawField.num 0)))
      = CalcResult.success snap ∧
      (∀ i, 13 ≤ i → i < (List.replicate 14 (0 : ℚ)).length →
        maxD (takeLast 14 ((List.replicate 14 (0 : ℚ)).take (i + 1)))
          = minD (takeLast 14 ((List.replicate 14 (0 : ℚ)).take (i + 1))) →
        kRawAt (List.replicate 14 (0 : ℚ)) (List.replicate 14 (0 : ℚ))
          (List.replicate 14 (0 : ℚ)) i = none) ∧
      (∀ i, (List.replicate 14 (0 : ℚ)).length - 3 ≤ i →
        i < (List.replicate 14 (0 : ℚ)).length →
        kRawAt (List.replicate 14 (0 : ℚ)) (List.replicate 14 (0 : ℚ))
          (List.replicate 14 (0 : ℚ)) i = none → snap.stochK = none) ∧
      (∀ i, (List.replicate 14 (0 : ℚ)).length - 5 ≤ i →
        i < (List.replicate 14 (0 : ℚ)).length →
        kRawAt (List.replicate 14 (0 : ℚ)) (List.replicate 14 (0 : ℚ))
          (List.replicate 14 (0 : ℚ)) i = none → snap.stochD = none)) :=
  ⟨⟨by decide, by decide, by decide, by decide⟩,
    stoch_flat_undefined _ _ _ _ (by decide) (by decide) (by decide)
      (by decide)⟩

/-- Claim C9: whenever the Bollinger Bands are defined at the last bar
(N ≥ 20 on a valid series), the reported values satisfy
upper ≥ middle ≥ lower. -/
theorem bollinger_band_order (rows : List (List RawField))
    (hv : validRows rows) (hN : 20 ≤ rows.length) :
    ∃ snap, ∃ u : ℝ, ∃ m : ℚ, ∃ l : ℝ,
      calculate_indicators rows = CalcResult.success snap ∧
      snap.bbUpper = some u ∧ snap.bbMiddle = some m ∧ snap.bbLower = some l ∧
      l ≤ (m : ℝ) ∧ (m : ℝ) ≤ u := by
  obtain ⟨high, low, close, vol, hh, hl, hc, hvol, hlh, hll, hlc, hne⟩ :=
    validRows_columns hv
  have h20 : 20 ≤ close.length := by omega
  have hs := Real.sqrt_nonneg ((popVar (takeLast 20 close) : ℚ) : ℝ)
  refine ⟨mkSnap high low close,
    ((mean (takeLast 20 close) : ℚ) : ℝ)
      + 2 * Real.sqrt ((popVar (takeLast 20 close) : ℚ) : ℝ),
    mean (takeLast 20 close),
    ((mean (takeLast 20 close) : ℚ) : ℝ)
      - 2 * Real.sqrt ((popVar (takeLast 20 close) : ℚ) : ℝ),
    compute_valid hv.2.1 hc hh hl hvol hne, ?_, ?_, ?_, ?_, ?_⟩
  · show bbUpperLatest close = some _
    unfold bbUpperLatest
    rw [if_pos h20]
  · show smaLatest 20 close = some _
    unfold smaLatest
    rw [if_pos ⟨by norm_num, h20⟩]
  · show bbLowerLatest close = some _
    unfold bbLowerLatest
    rw [if_pos h20]
  · linarith
  · linarith

/-- Witness for C9: a concrete valid series of 20 identical bars. -/
theorem bollinger_band_order_witness :
    (validRows (List.replicate 20 (List.replicate 6 (RawField.num 1))) ∧
      20 ≤ (List.replicate 20 (List.replicate 6 (RawField.num 1))).length) ∧
    (∃ snap, ∃ u : ℝ, ∃ m : ℚ, ∃ l : ℝ,
      calculate_indicators (List.replicate 20 (List.replicate 6 (RawField.num 1)))
        = CalcResult.success snap ∧
      snap.bbUpper = some u ∧ snap.bbMiddle = some m ∧ snap.bbLower = some l ∧
      l ≤ (m : ℝ) ∧ (m : ℝ) ≤ u) :=
  ⟨⟨by decide, by decide⟩, bollinger_band_order _ (by decide) (by decide)⟩
